import Mathlib

/-!
Verification of the openedx tagging core: a shallow embedding of the
permission predicates of `openedx_tagging/core/tagging/rules.py` and of the
object-tag binding engine (tag_object, get_object_tags, resync_object_tags,
autocomplete_tags) whose behaviour is specified in the design document and
pinned by `tests/openedx_tagging/core/tagging/test_api.py`.

The first half embeds `rules.py` directly (that file is in the repository).
The binding-engine operations are not part of the repository snapshot, only
their tests are; those definitions are modelled from the specification, with
the tests used to fix the points the specification leaves open, and each such
definition says so in its doc comment.
-/

/-! ## Part 1: the permission model of rules.py -/

/-- A Django user as the rules predicates see it: only `is_staff` is read
(`rules.is_staff`). -/
structure User where
  is_staff : Bool
deriving DecidableEq, Repr

/-- A Taxonomy row with the flags enumerated in the data model. -/
structure Taxonomy where
  id : Nat
  name : String
  enabled : Bool
  required : Bool
  allow_multiple : Bool
  allow_free_text : Bool
  system_defined : Bool
  visible_to_authors : Bool
deriving DecidableEq, Repr

/-- `Taxonomy.cast()` materialises the concrete variant; it is idempotent and
preserves every flag, so on the flag record it is the identity. -/
def Taxonomy.cast (t : Taxonomy) : Taxonomy := t

/-- A Tag row as `rules.py` reads it: only the (nullable) owning taxonomy is
consulted by the predicates. -/
structure Tag where
  id : Nat
  value : String
  taxonomy : Option Taxonomy
deriving DecidableEq, Repr

/-- `is_taxonomy_admin = rules.is_staff`: global staff are taxonomy admins. -/
def is_taxonomy_admin (user : User) : Bool := user.is_staff

/-- `can_view_taxonomy`: anyone can view an enabled taxonomy or list all
taxonomies, but only taxonomy admins can view a disabled taxonomy.
Source: `return not taxonomy or taxonomy.cast().enabled or is_taxonomy_admin(user)`. -/
def can_view_taxonomy (user : User) (taxonomy : Option Taxonomy := none) : Bool :=
  match taxonomy with
  | none => true
  | some t => t.cast.enabled || is_taxonomy_admin user

/-- `can_change_taxonomy`: even taxonomy admins cannot change system taxonomies.
Source: `is_taxonomy_admin(user) and (not taxonomy or bool(taxonomy and not
taxonomy.cast().system_defined))`. -/
def can_change_taxonomy (user : User) (taxonomy : Option Taxonomy := none) : Bool :=
  is_taxonomy_admin user &&
    (match taxonomy with
     | none => true
     | some t => !t.cast.system_defined)

/-- `can_change_tag`: even taxonomy admins cannot add tags to system taxonomies
or free-text taxonomies. Source:
`taxonomy = tag.taxonomy.cast() if (tag and tag.taxonomy) else None;
return is_taxonomy_admin(user) and (not tag or not taxonomy or
(taxonomy and not taxonomy.allow_free_text and not taxonomy.system_defined))`. -/
def can_change_tag (user : User) (tag : Option Tag := none) : Bool :=
  let taxonomy : Option Taxonomy :=
    match tag with
    | some t =>
      match t.taxonomy with
      | some tax => some tax.cast
      | none => none
    | none => none
  is_taxonomy_admin user &&
    (match tag with
     | none => true
     | some _ =>
       match taxonomy with
       | none => true
       | some tax => !tax.allow_free_text && !tax.system_defined)

/-- Pair of taxonomy and object_id used for permission checking
(`ChangeObjectTagPermissionItem`). -/
structure ChangeObjectTagPermissionItem where
  taxonomy : Taxonomy
  object_id : String
deriving DecidableEq, Repr

/-- `can_change_object_tag_objectid`: nobody can create or modify object tags
without checking the permission for the tagged object; the rule is meant to be
redefined by host applications, and this default denies every pair. -/
def can_change_object_tag_objectid (_user : User) (_object_id : String) : Bool :=
  false

/-- `can_change_object_tag`: allow-through when no resource is given (method
level permission for the viewset), otherwise the taxonomy check registered as
"oel_tagging.change_objecttag_taxonomy" (= `can_view_taxonomy`) and then the
object-id check registered as "oel_tagging.change_objecttag_objectid"
(= `can_change_object_tag_objectid`); the registrations are certified against
the `perms` table below. -/
def can_change_object_tag (user : User)
    (perm_obj : Option ChangeObjectTagPermissionItem := none) : Bool :=
  match perm_obj with
  | none => true
  | some perm_obj =>
    let taxonomy_perm := can_view_taxonomy user (some perm_obj.taxonomy)
    if taxonomy_perm = false then false
    else can_change_object_tag_objectid user perm_obj.object_id

/-- The argument a registered predicate receives: `rules` passes an arbitrary
object (or nothing); the predicates of this app read taxonomies, tags,
taxonomy/object-id pairs, or bare object ids. -/
inductive PermArg where
  | noArg : PermArg
  | taxonomyArg : Taxonomy → PermArg
  | tagArg : Tag → PermArg
  | itemArg : ChangeObjectTagPermissionItem → PermArg
  | objectIdArg : String → PermArg
deriving DecidableEq, Repr

def asTaxonomy : PermArg → Option Taxonomy
  | .taxonomyArg t => some t
  | _ => none

def asTag : PermArg → Option Tag
  | .tagArg t => some t
  | _ => none

def asItem : PermArg → Option ChangeObjectTagPermissionItem
  | .itemArg i => some i
  | _ => none

def asObjectId : PermArg → Option String
  | .objectIdArg oid => some oid
  | _ => none

/-- `can_view_taxonomy` adapted to the registry's uniform argument type. -/
def can_view_taxonomy_perm (u : User) (a : PermArg) : Bool :=
  can_view_taxonomy u (asTaxonomy a)

/-- `can_change_taxonomy` adapted to the registry's uniform argument type. -/
def can_change_taxonomy_perm (u : User) (a : PermArg) : Bool :=
  can_change_taxonomy u (asTaxonomy a)

/-- `can_change_tag` adapted to the registry's uniform argument type. -/
def can_change_tag_perm (u : User) (a : PermArg) : Bool :=
  can_change_tag u (asTag a)

/-- `is_taxonomy_admin` registered as a predicate ignores the resource. -/
def is_taxonomy_admin_perm (u : User) (_a : PermArg) : Bool :=
  is_taxonomy_admin u

/-- `rules.always_allow`. -/
def always_allow_perm (_u : User) (_a : PermArg) : Bool := true

/-- `can_change_object_tag` adapted to the registry's uniform argument type. -/
def can_change_object_tag_perm (u : User) (a : PermArg) : Bool :=
  can_change_object_tag u (asItem a)

/-- `can_change_object_tag_objectid` adapted to the registry's uniform argument
type. -/
def can_change_object_tag_objectid_perm (u : User) (a : PermArg) : Bool :=
  match asObjectId a with
  | some oid => can_change_object_tag_objectid u oid
  | none => false

/-- The `rules.add_perm` table at the bottom of rules.py, in source order. -/
def perms : List (String × (User → PermArg → Bool)) :=
  [("oel_tagging.add_taxonomy", can_change_taxonomy_perm),
   ("oel_tagging.change_taxonomy", can_change_taxonomy_perm),
   ("oel_tagging.delete_taxonomy", can_change_taxonomy_perm),
   ("oel_tagging.view_taxonomy", can_view_taxonomy_perm),
   ("oel_tagging.add_tag", can_change_tag_perm),
   ("oel_tagging.change_tag", can_change_tag_perm),
   ("oel_tagging.delete_tag", is_taxonomy_admin_perm),
   ("oel_tagging.view_tag", always_allow_perm),
   ("oel_tagging.list_tag", can_view_taxonomy_perm),
   ("oel_tagging.add_objecttag", can_change_object_tag_perm),
   ("oel_tagging.change_objecttag", can_change_object_tag_perm),
   ("oel_tagging.delete_objecttag", can_change_object_tag_perm),
   ("oel_tagging.view_objecttag", always_allow_perm),
   ("oel_tagging.change_objecttag_taxonomy", can_view_taxonomy_perm),
   ("oel_tagging.change_objecttag_objectid", can_change_object_tag_objectid_perm)]

/-- `user.has_perm(name, obj)` through the rules registry: run the registered
predicate, deny for an unknown permission name. -/
def has_perm (u : User) (name : String) (a : PermArg) : Bool :=
  match perms.lookup name with
  | some p => p u a
  | none => false

/-- C6: can_change_object_tag is true when called with no resource; with a
(taxonomy, object_id) resource it equals the conjunction of the registered
view-this-taxonomy check and the registered external object-id check, and the
evaluator's own registered default predicate for the object-id check denies
every (user, object_id) pair. -/
theorem can_change_object_tag_spec :
    (∀ u : User, can_change_object_tag u none = true)
    ∧ (∀ (u : User) (item : ChangeObjectTagPermissionItem),
        can_change_object_tag u (some item) =
          (has_perm u "oel_tagging.change_objecttag_taxonomy"
              (.taxonomyArg item.taxonomy)
            && has_perm u "oel_tagging.change_objecttag_objectid"
              (.objectIdArg item.object_id)))
    ∧ (∀ (u : User) (t : Taxonomy),
        has_perm u "oel_tagging.change_objecttag_taxonomy" (.taxonomyArg t)
          = can_view_taxonomy u (some t))
    ∧ (∀ (u : User) (oid : String),
        has_perm u "oel_tagging.change_objecttag_objectid" (.objectIdArg oid)
          = can_change_object_tag_objectid u oid)
    ∧ (∀ (u : User) (oid : String), can_change_object_tag_objectid u oid = false) := by
  refine ⟨fun u => rfl, fun u item => ?_, fun u t => rfl, fun u oid => rfl,
    fun u oid => rfl⟩
  have h2 : has_perm u "oel_tagging.change_objecttag_taxonomy"
      (.taxonomyArg item.taxonomy) = can_view_taxonomy u (some item.taxonomy) := rfl
  have h3 : has_perm u "oel_tagging.change_objecttag_objectid"
      (.objectIdArg item.object_id) = can_change_object_tag_objectid u item.object_id := rfl
  rw [h2, h3]
  cases h : can_view_taxonomy u (some item.taxonomy) <;>
    simp [can_change_object_tag, h, can_change_object_tag_objectid]

/-- C7: the add-tag and change-tag permissions are both governed by the same
predicate can_change_tag, which holds exactly when the user is a taxonomy
admin and the tag's taxonomy (when a tag with a taxonomy is given) is neither
free-text nor system-defined; the delete-tag permission is is_taxonomy_admin
alone, with no free-text/system-defined carve-outs. -/
theorem can_change_tag_spec :
    perms.lookup "oel_tagging.add_tag" = some can_change_tag_perm
    ∧ perms.lookup "oel_tagging.change_tag" = some can_change_tag_perm
    ∧ (∀ (u : User) (tag : Option Tag),
        can_change_tag u tag = true ↔
          (is_taxonomy_admin u = true ∧
            ∀ t : Tag, tag = some t → ∀ tax : Taxonomy, t.taxonomy = some tax →
              tax.allow_free_text = false ∧ tax.system_defined = false))
    ∧ perms.lookup "oel_tagging.delete_tag" = some is_taxonomy_admin_perm
    ∧ (∀ (u : User) (a : PermArg), is_taxonomy_admin_perm u a = is_taxonomy_admin u) := by
  refine ⟨rfl, rfl, fun u tag => ?_, rfl, fun u a => rfl⟩
  cases tag with
  | none =>
    simp only [can_change_tag, Bool.and_true]
    constructor
    · intro ha
      exact ⟨ha, fun t ht => by cases ht⟩
    · intro h
      exact h.1
  | some t =>
    cases htax : t.taxonomy with
    | none =>
      simp only [can_change_tag, htax, Bool.and_true]
      constructor
      · intro ha
        refine ⟨ha, fun t' ht' tax' htax' => ?_⟩
        obtain rfl : t = t' := Option.some.inj ht'
        rw [htax] at htax'
        cases htax'
      · intro h
        exact h.1
    | some tax =>
      simp only [can_change_tag, htax, Taxonomy.cast, Bool.and_eq_true,
        Bool.not_eq_true']
      constructor
      · rintro ⟨ha, hf, hs⟩
        refine ⟨ha, fun t' ht' tax' htax' => ?_⟩
        obtain rfl : t = t' := Option.some.inj ht'
        rw [htax] at htax'
        obtain rfl : tax = tax' := Option.some.inj htax'
        exact ⟨hf, hs⟩
      · rintro ⟨ha, h⟩
        obtain ⟨hf, hs⟩ := h t rfl tax htax
        exact ⟨ha, hf, hs⟩

/-- The flag record of a disabled, otherwise ordinary taxonomy. -/
def plainDisabledTaxonomy : Taxonomy :=
  { id := 2, name := "Disabled", enabled := false, required := false,
    allow_multiple := false, allow_free_text := false, system_defined := false,
    visible_to_authors := true }

/-- An ordinary non-staff user. -/
def plainUser : User := { is_staff := false }

/-- C8 counterexample: the registered list-tag predicate is not always-allow:
a non-admin user listing tags of a disabled taxonomy is denied. -/
theorem list_tag_not_always_allow :
    has_perm plainUser "oel_tagging.list_tag"
      (.taxonomyArg plainDisabledTaxonomy) = false := rfl

/-- C8 amended: view-tag and view-objecttag are always-allow for every user
and resource; the list-tags permission is instead registered to
can_view_taxonomy, which for a given taxonomy allows exactly when the taxonomy
is enabled or the user is a taxonomy admin (so it denies a non-admin user on a
disabled taxonomy). -/
theorem view_list_perm_amended :
    (∀ (u : User) (a : PermArg), has_perm u "oel_tagging.view_tag" a = true)
    ∧ (∀ (u : User) (a : PermArg),
        has_perm u "oel_tagging.view_objecttag" a = true)
    ∧ (∀ (u : User) (a : PermArg),
        has_perm u "oel_tagging.list_tag" a = can_view_taxonomy u (asTaxonomy a))
    ∧ (∀ (u : User) (t : Taxonomy),
        can_view_taxonomy u (some t) = (t.enabled || is_taxonomy_admin u)) :=
  ⟨fun _ _ => rfl, fun _ _ => rfl, fun _ _ => rfl, fun _ _ => rfl⟩

/-! ## Part 2: the object-tag binding engine

The api/models module of the tagging core is not part of the repository
snapshot (only its test suite is), so the store and the operations below are
modelled from the specification, with the tests of
`tests/openedx_tagging/core/tagging/test_api.py` fixing the points the
specification leaves open. -/

/-- Modelled from the spec: a Tag row of the tag store (the models module is
missing from the snapshot): identity, owning taxonomy, display value, and the
optional stable external key of model-backed taxonomies. -/
structure StoredTag where
  id : Nat
  taxonomy_id : Nat
  value : String
  external_id : Option String
deriving DecidableEq, Repr

/-- Modelled from the spec: an ObjectTag row (the models module is missing
from the snapshot): opaque case-sensitive `object_id`, nullable owning
taxonomy, nullable live link `tag_id` to a Tag row, the denormalized display
value captured at write time (`_value` in the source), and the taxonomy name
captured at write time. -/
structure StoredObjectTag where
  id : Nat
  object_id : String
  taxonomy_id : Option Nat
  tag_id : Option Nat
  value : String
  name : String
deriving DecidableEq, Repr

/-- Modelled from the spec: the relational store the binding engine reads and
writes: Taxonomy rows, Tag rows, ObjectTag rows, and the id counter for new
ObjectTag rows. -/
structure Store where
  taxonomies : List Taxonomy
  tags : List StoredTag
  object_tags : List StoredObjectTag
  next_object_tag_id : Nat
deriving DecidableEq, Repr

/-- Modelled from the spec: the process-wide cap on tags per object
(reference value 100). -/
def MAX_OBJECT_TAGS : Nat := 100

/-- The `values` argument of `tag_object` as Python receives it: an ordered
sequence of strings, or a value of any other runtime type, remembered by its
type name so the type-mismatch error can quote it. -/
inductive TagValues where
  | list : List String → TagValues
  | notList : String → TagValues
deriving DecidableEq, Repr

/-- The errors `tag_object` raises: the type-mismatch ValueError, the three
policy violations, and TagDoesNotExist for an unresolvable closed-vocabulary
value. -/
inductive TagError where
  | typeMismatch : String → TagError
  | policyOneTag : TagError
  | policyRequired : TagError
  | policyCap : TagError
  | tagDoesNotExist : String → TagError
deriving DecidableEq, Repr

/-- The user-visible message of each error, as quoted by the specification's
error-handling design. -/
def tagErrorMessage : TagError → String
  | .typeMismatch typeName => "Tags must be a list, not " ++ typeName ++ "."
  | .policyOneTag => "only allows one tag per object"
  | .policyRequired => "requires at least one tag per object"
  | .policyCap => "Cannot add more than 100 tags to object"
  | .tagDoesNotExist v => "Tag matching query does not exist: " ++ v

/-- Modelled from the spec: deduplication of the value sequence within one
`tag_object` call, keeping the first occurrence of each value in input
order (repeated identical strings collapse; in this store resolution is a
lookup by value, so repeated resolutions to the same Tag collapse with them). -/
def dedupFirst : List String → List String
  | [] => []
  | v :: vs => v :: (dedupFirst vs).filter (fun w => decide (w ≠ v))

/-- Modelled from the spec: `resolve(value)` of a closed taxonomy: the Tag row
of this taxonomy whose value is the given string. -/
def resolveTag (tags : List StoredTag) (taxonomy_id : Nat) (v : String) :
    Option StoredTag :=
  tags.find? (fun t => decide (t.taxonomy_id = taxonomy_id ∧ t.value = v))

/-- Modelled from the spec: value resolution of `tag_object`: free-text
taxonomies keep each value verbatim with no backing Tag; closed taxonomies
resolve each value to its Tag row, and an unresolvable value fails with
TagDoesNotExist, aborting the whole call. Each resolved entry is the value
paired with the Tag identity a fresh binding would store. -/
def resolveValues (tags : List StoredTag) (taxonomy : Taxonomy) :
    List String → Except TagError (List (String × Option Nat))
  | [] => .ok []
  | v :: vs =>
    if taxonomy.allow_free_text then
      match resolveValues tags taxonomy vs with
      | .ok rest => .ok ((v, none) :: rest)
      | .error e => .error e
    else
      match resolveTag tags taxonomy.id v with
      | none => .error (.tagDoesNotExist v)
      | some t =>
        match resolveValues tags taxonomy vs with
        | .ok rest => .ok ((v, some t.id) :: rest)
        | .error e => .error e

/-- The rows of one `(object_id, taxonomy)` pair. -/
def isPairBinding (taxonomy_id : Nat) (object_id : String)
    (ot : StoredObjectTag) : Bool :=
  decide (ot.object_id = object_id ∧ ot.taxonomy_id = some taxonomy_id)

/-- The rows counted against the per-object cap: the object's bindings on
every other taxonomy (so a taxonomy can be updated in place at the cap). -/
def isOtherBinding (taxonomy_id : Nat) (object_id : String)
    (ot : StoredObjectTag) : Bool :=
  decide (ot.object_id = object_id ∧ ¬ot.taxonomy_id = some taxonomy_id)

/-- Modelled from the spec: the replacement row list of one `tag_object`
write, in input order: a resolved value whose binding already exists in
`current` is left as-is, any other gets a fresh row; the second component is
the id counter after the fresh rows. -/
def buildBindings (taxonomy : Taxonomy) (object_id : String)
    (current : List StoredObjectTag) (nextId : Nat) :
    List (String × Option Nat) → List StoredObjectTag × Nat
  | [] => ([], nextId)
  | r :: rest =>
    match current.find? (fun ot => decide (ot.value = r.1)) with
    | some ot =>
      let built := buildBindings taxonomy object_id current nextId rest
      (ot :: built.1, built.2)
    | none =>
      let fresh : StoredObjectTag :=
        { id := nextId, object_id := object_id,
          taxonomy_id := some taxonomy.id, tag_id := r.2,
          value := r.1, name := taxonomy.name }
      let built := buildBindings taxonomy object_id current (nextId + 1) rest
      (fresh :: built.1, built.2)

/-- Modelled from the spec: `tag_object(taxonomy, values, object_id)`:
validate that `values` is a list; enforce the one-tag, required and
per-object-cap policies before any write; deduplicate; resolve; and replace
the `(object_id, taxonomy)` binding set in full, preserving input order and
leaving bindings of matching values as-is. Errors return the store
untouched (the call is one atomic unit). -/
def tag_object (s : Store) (taxonomy : Taxonomy) (values : TagValues)
    (object_id : String) : Except TagError Store :=
  match values with
  | .notList typeName => .error (.typeMismatch typeName)
  | .list vs =>
    if taxonomy.allow_multiple = false ∧ 1 < vs.length then
      .error .policyOneTag
    else if taxonomy.required = true ∧ vs = [] then
      .error .policyRequired
    else
      let values := dedupFirst vs
      let otherCount :=
        (s.object_tags.filter (isOtherBinding taxonomy.id object_id)).length
      if MAX_OBJECT_TAGS < otherCount + values.length then
        .error .policyCap
      else
        match resolveValues s.tags taxonomy values with
        | .error e => .error e
        | .ok resolved =>
          let current := s.object_tags.filter (isPairBinding taxonomy.id object_id)
          let kept := s.object_tags.filter
            (fun ot => !isPairBinding taxonomy.id object_id ot)
          let built := buildBindings taxonomy object_id current
            s.next_object_tag_id resolved
          .ok { s with object_tags := kept ++ built.1,
                       next_object_tag_id := built.2 }

/-- The sort key ordering an object's bindings by taxonomy identity, bindings
that outlived their taxonomy first. -/
def taxKey (ot : StoredObjectTag) : Nat :=
  match ot.taxonomy_id with
  | none => 0
  | some tid => tid + 1

/-- Stable insertion by `taxKey`: a row goes after every row whose key is not
greater, so rows of one taxonomy keep their stored order. -/
def insertByKey (x : StoredObjectTag) : List StoredObjectTag → List StoredObjectTag
  | [] => [x]
  | y :: ys => if taxKey x < taxKey y then x :: y :: ys else y :: insertByKey x ys

/-- Stable insertion sort by `taxKey`. -/
def sortByKey : List StoredObjectTag → List StoredObjectTag
  | [] => []
  | x :: xs => insertByKey x (sortByKey xs)

/-- Modelled from the spec: `get_object_tags(object_id, taxonomy_id=None)`:
every binding of the object, ordered by taxonomy identity (a binding whose
taxonomy reference is null first) and stored order within one taxonomy;
passing `taxonomy_id` filters to exactly that taxonomy's bindings. -/
def get_object_tags (s : Store) (object_id : String)
    (taxonomy_id : Option Nat := none) : List StoredObjectTag :=
  match taxonomy_id with
  | some tid => s.object_tags.filter (isPairBinding tid object_id)
  | none =>
    sortByKey (s.object_tags.filter (fun ot => decide (ot.object_id = object_id)))

/-! ### Lemmas about deduplication, resolution and the write -/

theorem mem_dedupFirst {a : String} : ∀ {l : List String}, a ∈ dedupFirst l → a ∈ l := by
  intro l
  induction l with
  | nil => simp [dedupFirst]
  | cons v vs ih =>
    rw [dedupFirst]
    intro h
    rcases List.mem_cons.mp h with rfl | h'
    · exact List.mem_cons_self _ _
    · exact List.mem_cons_of_mem _ (ih (List.mem_of_mem_filter h'))

theorem dedupFirst_nodup : ∀ (l : List String), (dedupFirst l).Nodup := by
  intro l
  induction l with
  | nil => simp [dedupFirst]
  | cons v vs ih =>
    rw [dedupFirst]
    refine List.Nodup.cons (fun hmem => ?_) (List.Nodup.filter _ ih)
    have h2 := (List.mem_filter.mp hmem).2
    simp at h2

theorem resolveValues_map_fst (tags : List StoredTag) (tax : Taxonomy) :
    ∀ (l : List String) (resolved : List (String × Option Nat)),
      resolveValues tags tax l = .ok resolved → resolved.map Prod.fst = l := by
  intro l
  induction l with
  | nil =>
    intro resolved h
    simp only [resolveValues] at h
    cases h
    rfl
  | cons v vs ih =>
    intro resolved h
    simp only [resolveValues] at h
    split at h
    · cases hrec : resolveValues tags tax vs with
      | ok rest => rw [hrec] at h; cases h; simp [ih rest hrec]
      | error e => rw [hrec] at h; cases h
    · cases hres : resolveTag tags tax.id v with
      | none => rw [hres] at h; cases h
      | some t =>
        rw [hres] at h
        cases hrec : resolveValues tags tax vs with
        | ok rest => rw [hrec] at h; cases h; simp [ih rest hrec]
        | error e => rw [hrec] at h; cases h

theorem buildBindings_map_value (tax : Taxonomy) (oid : String)
    (current : List StoredObjectTag) :
    ∀ (n : Nat) (resolved : List (String × Option Nat)),
      (buildBindings tax oid current n resolved).1.map StoredObjectTag.value
        = resolved.map Prod.fst := by
  intro n resolved
  induction resolved generalizing n with
  | nil => rfl
  | cons r rest ih =>
    simp only [buildBindings]
    split
    · rename_i ot hfind
      have hv : ot.value = r.1 := by simpa using List.find?_some hfind
      simp [hv, ih]
    · simp [ih]

theorem buildBindings_pair (tax : Taxonomy) (oid : String)
    (current : List StoredObjectTag)
    (hcur : ∀ c ∈ current, isPairBinding tax.id oid c = true) :
    ∀ (n : Nat) (resolved : List (String × Option Nat)),
      ∀ x ∈ (buildBindings tax oid current n resolved).1,
        isPairBinding tax.id oid x = true := by
  intro n resolved
  induction resolved generalizing n with
  | nil => intro x hx; cases hx
  | cons r rest ih =>
    intro x hx
    simp only [buildBindings] at hx
    split at hx
    · rename_i ot hfind
      rcases List.mem_cons.mp hx with rfl | hx'
      · exact hcur _ (List.mem_of_find?_eq_some hfind)
      · exact ih n x hx'
    · rcases List.mem_cons.mp hx with rfl | hx'
      · simp [isPairBinding]
      · exact ih (n + 1) x hx'

/-- The getD fallback for looked-up rows. -/
def defaultObjectTag : StoredObjectTag :=
  { id := 0, object_id := "", taxonomy_id := none, tag_id := none,
    value := "", name := "" }

theorem buildBindings_all_found (tax : Taxonomy) (oid : String)
    (current : List StoredObjectTag) :
    ∀ (n : Nat) (resolved : List (String × Option Nat)),
      (∀ r ∈ resolved,
        (current.find? (fun ot => decide (ot.value = r.1))).isSome) →
      buildBindings tax oid current n resolved =
        (resolved.map (fun r =>
          (current.find? (fun ot => decide (ot.value = r.1))).getD
            defaultObjectTag), n) := by
  intro n resolved
  induction resolved generalizing n with
  | nil => intro _; rfl
  | cons r rest ih =>
    intro hall
    obtain ⟨ot, hot⟩ :=
      Option.isSome_iff_exists.mp (hall r (List.mem_cons_self _ _))
    simp only [buildBindings, hot]
    rw [ih n (fun r' hr' => hall r' (List.mem_cons_of_mem _ hr'))]
    simp [hot]

theorem map_find_getD_eq_self :
    ∀ (resolved : List (String × Option Nat)) (current : List StoredObjectTag),
      current.map StoredObjectTag.value = resolved.map Prod.fst →
      (resolved.map Prod.fst).Nodup →
      resolved.map (fun r =>
        (current.find? (fun ot => decide (ot.value = r.1))).getD defaultObjectTag)
        = current := by
  intro resolved
  induction resolved with
  | nil =>
    intro current halign _
    cases current with
    | nil => rfl
    | cons c cs => cases halign
  | cons r rest ih =>
    intro current halign hnd
    cases current with
    | nil => cases halign
    | cons c cs =>
      simp only [List.map_cons, List.cons.injEq] at halign
      obtain ⟨hcv, htail⟩ := halign
      have hnd' : r.1 ∉ rest.map Prod.fst ∧ (rest.map Prod.fst).Nodup := by
        rw [List.map_cons] at hnd
        exact List.nodup_cons.mp hnd
      have hfind_c : (c :: cs).find? (fun ot => decide (ot.value = r.1))
          = some c := by
        simp [List.find?_cons, hcv]
      simp only [List.map_cons, hfind_c, Option.getD_some]
      congr 1
      have hstep : ∀ r' ∈ rest,
          ((c :: cs).find? (fun ot => decide (ot.value = r'.1))).getD
              defaultObjectTag
            = (cs.find? (fun ot => decide (ot.value = r'.1))).getD
              defaultObjectTag := by
        intro r' hr'
        have hmem : r'.1 ∈ rest.map Prod.fst := List.mem_map_of_mem _ hr'
        have hne : ¬(c.value = r'.1) := by
          intro hEq
          have h1 : r.1 = r'.1 := by rw [← hcv, hEq]
          exact hnd'.1 (h1 ▸ hmem)
        simp [List.find?_cons, hne]
      rw [List.map_congr_left hstep]
      exact ih cs htail hnd'.2

theorem filter_not_self (p : StoredObjectTag → Bool) (l : List StoredObjectTag) :
    (l.filter (fun a => !p a)).filter p = [] := by
  rw [List.filter_filter]
  simp

theorem filter_not_idem (p : StoredObjectTag → Bool) (l : List StoredObjectTag) :
    (l.filter (fun a => !p a)).filter (fun a => !p a)
      = l.filter (fun a => !p a) := by
  rw [List.filter_filter]
  simp

theorem pair_not_other (tid : Nat) (oid : String) (ot : StoredObjectTag)
    (h : isPairBinding tid oid ot = true) : isOtherBinding tid oid ot = false := by
  simp only [isPairBinding, decide_eq_true_eq] at h
  simp [isOtherBinding, h.1, h.2]

theorem filter_other_kept (tid : Nat) (oid : String) (l : List StoredObjectTag) :
    (l.filter (fun ot => !isPairBinding tid oid ot)).filter (isOtherBinding tid oid)
      = l.filter (isOtherBinding tid oid) := by
  rw [List.filter_filter]
  apply List.filter_congr
  intro a _
  by_cases h1 : a.object_id = oid
  · by_cases h2 : a.taxonomy_id = some tid
    · simp [isOtherBinding, isPairBinding, h1, h2]
    · simp [isOtherBinding, isPairBinding, h1, h2]
  · simp [isOtherBinding, isPairBinding, h1]

/-- C1: a successful tag_object call replaces the binding set of
(object_id, taxonomy) with exactly the deduplicated resolved input set in
input order, and repeating the call with the same values changes nothing. -/
theorem tag_object_replace_idempotent :
    ∀ (s : Store) (taxonomy : Taxonomy) (vs : List String) (object_id : String)
      (s' : Store),
      tag_object s taxonomy (.list vs) object_id = .ok s' →
      ((get_object_tags s' object_id (some taxonomy.id)).map StoredObjectTag.value
          = dedupFirst vs
        ∧ tag_object s' taxonomy (.list vs) object_id = .ok s') := by
  intro s tax vs oid s' h
  simp only [tag_object] at h
  split at h
  · cases h
  split at h
  · cases h
  split at h
  · cases h
  rename_i hc1 hc2 hcap
  split at h
  · cases h
  rename_i resolved hres
  injection h with h
  subst h
  set current := List.filter (isPairBinding tax.id oid) s.object_tags with hcurrent
  set kept := List.filter (fun ot => !isPairBinding tax.id oid ot) s.object_tags
    with hkept
  set built := buildBindings tax oid current s.next_object_tag_id resolved
    with hbuilt
  have hcur_mem : ∀ c ∈ current, isPairBinding tax.id oid c = true := by
    intro c hc
    exact (List.mem_filter.mp hc).2
  have hpair_built : ∀ x ∈ built.1, isPairBinding tax.id oid x = true :=
    buildBindings_pair tax oid current hcur_mem s.next_object_tag_id resolved
  have hfilter_pair :
      List.filter (isPairBinding tax.id oid) (kept ++ built.1) = built.1 := by
    rw [List.filter_append, hkept, filter_not_self,
      List.filter_eq_self.mpr hpair_built, List.nil_append]
  have hmapval0 : built.1.map StoredObjectTag.value = resolved.map Prod.fst := by
    rw [hbuilt, buildBindings_map_value]
  have hmapval : built.1.map StoredObjectTag.value = dedupFirst vs := by
    rw [hmapval0, resolveValues_map_fst s.tags tax _ _ hres]
  constructor
  · simp only [get_object_tags]
    rw [hfilter_pair, hmapval]
  · simp only [tag_object]
    rw [if_neg hc1, if_neg hc2]
    have hbuilt_other : List.filter (isOtherBinding tax.id oid) built.1 = [] := by
      rw [List.filter_eq_nil_iff]
      intro a ha
      simp [pair_not_other _ _ _ (hpair_built a ha)]
    have hother : List.filter (isOtherBinding tax.id oid) (kept ++ built.1)
        = List.filter (isOtherBinding tax.id oid) s.object_tags := by
      rw [List.filter_append, hkept, filter_other_kept, hbuilt_other,
        List.append_nil]
    rw [hother, if_neg hcap, hres]
    have hkept2 : List.filter (fun ot => !isPairBinding tax.id oid ot)
        (kept ++ built.1) = kept := by
      have hnil : List.filter (fun ot => !isPairBinding tax.id oid ot) built.1
          = [] := by
        rw [List.filter_eq_nil_iff]
        intro a ha
        simp [hpair_built a ha]
      rw [List.filter_append, hkept, filter_not_idem, hnil, List.append_nil]
    have hfound : ∀ r ∈ resolved,
        (built.1.find? (fun ot => decide (ot.value = r.1))).isSome := by
      intro r hr
      rw [List.find?_isSome]
      have hmem : r.1 ∈ built.1.map StoredObjectTag.value := by
        rw [hmapval0]
        exact List.mem_map_of_mem _ hr
      obtain ⟨x, hx, hxv⟩ := List.mem_map.mp hmem
      exact ⟨x, hx, by simp [hxv]⟩
    have hnodup : (resolved.map Prod.fst).Nodup := by
      rw [resolveValues_map_fst s.tags tax _ _ hres]
      exact dedupFirst_nodup vs
    have hbuild2 : buildBindings tax oid built.1 built.2 resolved
        = (built.1, built.2) := by
      rw [buildBindings_all_found tax oid built.1 built.2 resolved hfound,
        map_find_getD_eq_self resolved built.1 hmapval0 hnodup]
    rw [hfilter_pair, hkept2]
    exact congrArg
      (fun p : List StoredObjectTag × Nat => (Except.ok
        { taxonomies := s.taxonomies, tags := s.tags, object_tags := kept ++ p.1,
          next_object_tag_id := p.2 } : Except TagError Store)) hbuild2

/-- The closed "Life on Earth" taxonomy of the test fixtures. -/
def lifeTaxonomy : Taxonomy :=
  { id := 1, name := "Life on Earth", enabled := true, required := false,
    allow_multiple := true, allow_free_text := false, system_defined := false,
    visible_to_authors := true }

/-- The "Archaea" tag of the fixture taxonomy. -/
def archaeaTag : StoredTag :=
  { id := 2, taxonomy_id := 1, value := "Archaea", external_id := none }

/-- The "Eubacteria" tag of the fixture taxonomy. -/
def eubacteriaTag : StoredTag :=
  { id := 3, taxonomy_id := 1, value := "Eubacteria", external_id := none }

/-- A store holding the fixture taxonomy and its two tags, no bindings yet. -/
def exampleStore : Store :=
  { taxonomies := [lifeTaxonomy], tags := [archaeaTag, eubacteriaTag],
    object_tags := [], next_object_tag_id := 1 }

/-- The store after tagging "biology101" with Archaea and Eubacteria. -/
def exampleStoreTagged : Store :=
  { taxonomies := [lifeTaxonomy], tags := [archaeaTag, eubacteriaTag],
    object_tags :=
      [{ id := 1, object_id := "biology101", taxonomy_id := some 1,
         tag_id := some 2, value := "Archaea", name := "Life on Earth" },
       { id := 2, object_id := "biology101", taxonomy_id := some 1,
         tag_id := some 3, value := "Eubacteria", name := "Life on Earth" }],
    next_object_tag_id := 3 }

theorem tag_object_replace_idempotent_witness :
    tag_object exampleStore lifeTaxonomy
        (.list ["Archaea", "Eubacteria", "Archaea"]) "biology101"
        = .ok exampleStoreTagged
      ∧ ((get_object_tags exampleStoreTagged "biology101"
            (some lifeTaxonomy.id)).map StoredObjectTag.value
          = dedupFirst ["Archaea", "Eubacteria", "Archaea"]
        ∧ tag_object exampleStoreTagged lifeTaxonomy
            (.list ["Archaea", "Eubacteria", "Archaea"]) "biology101"
            = .ok exampleStoreTagged) :=
  ⟨rfl,
   tag_object_replace_idempotent exampleStore lifeTaxonomy
     ["Archaea", "Eubacteria", "Archaea"] "biology101" exampleStoreTagged rfl⟩

/-- C2: tag_object rejects a non-list `values` with a type-mismatch error that
names the offending type, rejects more than one value when the taxonomy does
not allow multiple tags, and rejects an empty list when the taxonomy requires
a tag; each failure returns an error and no store, so prior bindings are
untouched. -/
theorem tag_object_validation :
    (∀ (s : Store) (taxonomy : Taxonomy) (typeName object_id : String),
       tag_object s taxonomy (.notList typeName) object_id
           = .error (.typeMismatch typeName)
         ∧ tagErrorMessage (.typeMismatch typeName)
           = "Tags must be a list, not " ++ typeName ++ ".")
    ∧ (∀ (s : Store) (taxonomy : Taxonomy) (vs : List String) (object_id : String),
        taxonomy.allow_multiple = false → 1 < vs.length →
          tag_object s taxonomy (.list vs) object_id = .error .policyOneTag)
    ∧ tagErrorMessage .policyOneTag = "only allows one tag per object"
    ∧ (∀ (s : Store) (taxonomy : Taxonomy) (object_id : String),
        taxonomy.required = true →
          tag_object s taxonomy (.list []) object_id = .error .policyRequired)
    ∧ tagErrorMessage .policyRequired = "requires at least one tag per object" := by
  refine ⟨fun s taxonomy typeName object_id => ⟨rfl, rfl⟩, ?_, rfl, ?_, rfl⟩
  · intro s taxonomy vs object_id h1 h2
    simp only [tag_object]
    rw [if_pos ⟨h1, h2⟩]
  · intro s taxonomy object_id hreq
    simp only [tag_object]
    rw [if_neg (by simp), if_pos (by exact ⟨hreq, trivial⟩)]

/-- The fixture taxonomy with `allow_multiple` off. -/
def singleTagTaxonomy : Taxonomy := { lifeTaxonomy with id := 5, allow_multiple := false }

/-- The fixture taxonomy with `required` on. -/
def requiredTagTaxonomy : Taxonomy := { lifeTaxonomy with id := 6, required := true }

theorem tag_object_validation_witness :
    (tag_object exampleStore lifeTaxonomy (.notList "str") "biology101"
        = .error (.typeMismatch "str")
      ∧ tagErrorMessage (.typeMismatch "str") = "Tags must be a list, not str.")
    ∧ tag_object exampleStore singleTagTaxonomy (.list ["A", "B"]) "biology101"
        = .error .policyOneTag
    ∧ tag_object exampleStore requiredTagTaxonomy (.list []) "biology101"
        = .error .policyRequired :=
  ⟨⟨(tag_object_validation.1 exampleStore lifeTaxonomy "str" "biology101").1, rfl⟩,
   tag_object_validation.2.1 exampleStore singleTagTaxonomy ["A", "B"] "biology101"
     rfl (by decide),
   tag_object_validation.2.2.2.1 exampleStore requiredTagTaxonomy "biology101" rfl⟩

/-- C3: tag_object fails with the cap policy violation exactly when the
object's bindings on all other taxonomies plus the new deduplicated set would
pass the per-object cap of 100; when that sum stays within the cap (as when a
taxonomy's own bindings are replaced in place) and the values resolve, the
call succeeds. -/
theorem tag_object_cap :
    (∀ (s : Store) (taxonomy : Taxonomy) (vs : List String) (object_id : String),
       (taxonomy.allow_multiple = true ∨ vs.length ≤ 1) →
       (taxonomy.required = true → vs ≠ []) →
       MAX_OBJECT_TAGS <
           (s.object_tags.filter (isOtherBinding taxonomy.id object_id)).length
             + (dedupFirst vs).length →
       tag_object s taxonomy (.list vs) object_id = .error .policyCap)
    ∧ (∀ (s : Store) (taxonomy : Taxonomy) (vs : List String) (object_id : String)
         (resolved : List (String × Option Nat)),
       (taxonomy.allow_multiple = true ∨ vs.length ≤ 1) →
       (taxonomy.required = true → vs ≠ []) →
       (s.object_tags.filter (isOtherBinding taxonomy.id object_id)).length
           + (dedupFirst vs).length ≤ MAX_OBJECT_TAGS →
       resolveValues s.tags taxonomy (dedupFirst vs) = .ok resolved →
       ∃ s', tag_object s taxonomy (.list vs) object_id = .ok s') := by
  have hnc1 : ∀ (taxonomy : Taxonomy) (vs : List String),
      (taxonomy.allow_multiple = true ∨ vs.length ≤ 1) →
      ¬(taxonomy.allow_multiple = false ∧ 1 < vs.length) := by
    rintro taxonomy vs (hm | hlen) ⟨hf, hgt⟩
    · rw [hm] at hf; cases hf
    · exact absurd hgt (Nat.not_lt.mpr hlen)
  have hnc2 : ∀ (taxonomy : Taxonomy) (vs : List String),
      (taxonomy.required = true → vs ≠ []) →
      ¬(taxonomy.required = true ∧ vs = []) := by
    rintro taxonomy vs hr ⟨hreq, hnil⟩
    exact hr hreq hnil
  constructor
  · intro s taxonomy vs object_id h1 h2 hcap
    simp only [tag_object]
    rw [if_neg (hnc1 taxonomy vs h1), if_neg (hnc2 taxonomy vs h2), if_pos hcap]
  · intro s taxonomy vs object_id resolved h1 h2 hcap hres
    cases hEq : tag_object s taxonomy (.list vs) object_id with
    | ok s2 => exact ⟨s2, rfl⟩
    | error e =>
      simp only [tag_object] at hEq
      rw [if_neg (hnc1 taxonomy vs h1), if_neg (hnc2 taxonomy vs h2),
        if_neg (Nat.not_lt.mpr hcap), hres] at hEq
      cases hEq

/-- A free-text dummy taxonomy like the cap test's dummy taxonomies. -/
def dummyTaxonomy2 : Taxonomy :=
  { id := 2, name := "Dummy Taxonomy 2", enabled := true, required := false,
    allow_multiple := true, allow_free_text := true, system_defined := false,
    visible_to_authors := true }

/-- A store mirroring test_tag_object_limit: "object_1" carries one binding on
each of 100 dummy taxonomies (ids 2 to 101), so the object sits at the cap. -/
def cappedStore : Store :=
  { taxonomies := [lifeTaxonomy, dummyTaxonomy2],
    tags := [archaeaTag, eubacteriaTag],
    object_tags := (List.range 100).map (fun k =>
      { id := k + 1, object_id := "object_1", taxonomy_id := some (k + 2),
        tag_id := none, value := "Dummy Tag", name := "Dummy" }),
    next_object_tag_id := 101 }

theorem tag_object_cap_witness :
    tag_object cappedStore lifeTaxonomy (.list ["Eubacteria"]) "object_1"
        = .error .policyCap
      ∧ ∃ s', tag_object cappedStore dummyTaxonomy2 (.list ["New Dummy Tag"])
          "object_1" = .ok s' :=
  ⟨tag_object_cap.1 cappedStore lifeTaxonomy ["Eubacteria"] "object_1"
     (Or.inl rfl) (by decide) (by decide),
   tag_object_cap.2 cappedStore dummyTaxonomy2 ["New Dummy Tag"] "object_1"
     [("New Dummy Tag", none)] (Or.inl rfl) (by decide) (by decide) rfl⟩

/-! ## Part 3: tag deletion, the computed is_deleted flag, and resync -/

/-- The taxonomy row a binding references. -/
def findTaxonomy (taxonomies : List Taxonomy) (tid : Nat) : Option Taxonomy :=
  taxonomies.find? (fun tax => decide (tax.id = tid))

/-- Modelled from the spec: the computed (never stored) is_deleted flag of a
binding: true when the binding outlived its taxonomy, or when its taxonomy is
closed (not free-text) and its Tag-to-binding link has been severed. The
resync test pins that deleting a Tag severs the link immediately while the
denormalized value survives. -/
def is_deleted (taxonomies : List Taxonomy) (ot : StoredObjectTag) : Bool :=
  match ot.taxonomy_id with
  | none => true
  | some tid =>
    match findTaxonomy taxonomies tid with
    | none => true
    | some tax =>
      if tax.allow_free_text then false else decide (ot.tag_id = none)

/-- Modelled from the spec: deleting a Tag removes its row and severs the
Tag-to-binding link of every binding that references it; the binding rows
themselves, their denormalized values included, all stay. -/
def delete_tag (s : Store) (i : Nat) : Store :=
  { s with
    tags := s.tags.filter (fun t => !decide (t.id = i)),
    object_tags := s.object_tags.map (fun ot =>
      if ot.tag_id = some i then { ot with tag_id := none } else ot) }

/-- Modelled from the spec: editing a Tag's display value rewrites the Tag row
only; the denormalized value of existing bindings is never auto-synced. -/
def update_tag_value (s : Store) (i : Nat) (v : String) : Store :=
  { s with
    tags := s.tags.map (fun t => if t.id = i then { t with value := v } else t) }

/-- A binding whose taxonomy row exists and is closed (not free-text): the
bindings whose is_deleted flag tracks the Tag link. -/
def closedTaxonomyBinding (taxonomies : List Taxonomy)
    (ot : StoredObjectTag) : Bool :=
  match ot.taxonomy_id with
  | none => false
  | some tid =>
    match findTaxonomy taxonomies tid with
    | none => false
    | some tax => !tax.allow_free_text

theorem is_deleted_sever (T : List Taxonomy) (ot : StoredObjectTag)
    (h : closedTaxonomyBinding T ot = true) :
    is_deleted T { ot with tag_id := none } = true := by
  cases hot : ot.taxonomy_id with
  | none => simp [closedTaxonomyBinding, hot] at h
  | some tid =>
    cases hft : findTaxonomy T tid with
    | none => simp [closedTaxonomyBinding, hot, hft] at h
    | some tax =>
      have hf : tax.allow_free_text = false := by
        simpa [closedTaxonomyBinding, hot, hft, Bool.not_eq_true'] using h
      simp [is_deleted, hot, hft, hf]

theorem is_deleted_linked (T : List Taxonomy) (ot : StoredObjectTag) (i : Nat)
    (htag : ot.tag_id = some i) (h : closedTaxonomyBinding T ot = true) :
    is_deleted T ot = false := by
  cases hot : ot.taxonomy_id with
  | none => simp [closedTaxonomyBinding, hot] at h
  | some tid =>
    cases hft : findTaxonomy T tid with
    | none => simp [closedTaxonomyBinding, hot, hft] at h
    | some tax =>
      have hf : tax.allow_free_text = false := by
        simpa [closedTaxonomyBinding, hot, hft, Bool.not_eq_true'] using h
      simp [is_deleted, hot, hft, hf, htag]

/-- C4: deleting a Tag keeps every binding in existence with every field but
the severed link unchanged (in particular the denormalized value); the
computed is_deleted flag immediately becomes true exactly for the live
closed-taxonomy bindings that referenced the deleted tag and is unchanged on
every other binding; editing a Tag's display value never touches the binding
rows at all (no auto-sync of the denormalized value). -/
theorem delete_tag_frame :
    (∀ (s : Store) (i : Nat),
      (delete_tag s i).object_tags.length = s.object_tags.length
        ∧ (delete_tag s i).taxonomies = s.taxonomies)
    ∧ (∀ (s : Store) (i : Nat) (k : Nat)
        (hk : k < s.object_tags.length)
        (hk' : k < (delete_tag s i).object_tags.length),
        ((delete_tag s i).object_tags[k].id = s.object_tags[k].id
          ∧ (delete_tag s i).object_tags[k].object_id = s.object_tags[k].object_id
          ∧ (delete_tag s i).object_tags[k].taxonomy_id = s.object_tags[k].taxonomy_id
          ∧ (delete_tag s i).object_tags[k].value = s.object_tags[k].value
          ∧ (delete_tag s i).object_tags[k].name = s.object_tags[k].name)
        ∧ (s.object_tags[k].tag_id = some i →
            closedTaxonomyBinding s.taxonomies s.object_tags[k] = true →
            is_deleted s.taxonomies s.object_tags[k] = false
              ∧ is_deleted s.taxonomies ((delete_tag s i).object_tags[k]) = true)
        ∧ (s.object_tags[k].tag_id ≠ some i →
            (delete_tag s i).object_tags[k] = s.object_tags[k]
              ∧ is_deleted s.taxonomies ((delete_tag s i).object_tags[k])
                = is_deleted s.taxonomies s.object_tags[k]))
    ∧ (∀ (s : Store) (i : Nat) (v : String),
        (update_tag_value s i v).object_tags = s.object_tags) := by
  refine ⟨fun s i => ⟨by simp [delete_tag], rfl⟩, ?_, fun s i v => rfl⟩
  intro s i k hk hk'
  have hmap : (delete_tag s i).object_tags[k]
      = (if s.object_tags[k].tag_id = some i
          then { s.object_tags[k] with tag_id := none }
          else s.object_tags[k]) := by
    simp [delete_tag]
  by_cases htag : s.object_tags[k].tag_id = some i
  · rw [hmap, if_pos htag]
    refine ⟨⟨rfl, rfl, rfl, rfl, rfl⟩, fun _ hclosed => ?_, fun hne => absurd htag hne⟩
    exact ⟨is_deleted_linked s.taxonomies _ i htag hclosed,
      is_deleted_sever s.taxonomies _ hclosed⟩
  · rw [hmap, if_neg htag]
    exact ⟨⟨rfl, rfl, rfl, rfl, rfl⟩, fun h _ => absurd h htag, fun _ => ⟨rfl, rfl⟩⟩

theorem delete_tag_frame_witness :
    ((delete_tag exampleStoreTagged 3).object_tags.length
        = exampleStoreTagged.object_tags.length)
    ∧ is_deleted exampleStoreTagged.taxonomies
        (exampleStoreTagged.object_tags.get ⟨1, by decide⟩) = false
    ∧ is_deleted exampleStoreTagged.taxonomies
        ((delete_tag exampleStoreTagged 3).object_tags.get ⟨1, by decide⟩) = true
    ∧ (update_tag_value exampleStoreTagged 3 "Bacteria").object_tags
        = exampleStoreTagged.object_tags :=
  ⟨(delete_tag_frame.1 exampleStoreTagged 3).1,
   ((delete_tag_frame.2.1 exampleStoreTagged 3 1 (by decide) (by decide)).2.1
      (by decide) (by decide)).1,
   ((delete_tag_frame.2.1 exampleStoreTagged 3 1 (by decide) (by decide)).2.1
      (by decide) (by decide)).2,
   delete_tag_frame.2.2 exampleStoreTagged 3 "Bacteria"⟩

/-- Modelled from the spec: one binding's resync step: a closed-taxonomy
binding whose link was severed is re-linked to a Tag of its taxonomy carrying
the binding's stored value, when such a Tag exists again (the resync test
recreates an equivalent Tag and expects exactly the affected binding
repaired); every other binding is left untouched. The flag records whether a
repair happened. -/
def resync_binding (taxonomies : List Taxonomy) (tags : List StoredTag)
    (ot : StoredObjectTag) : Bool × StoredObjectTag :=
  match ot.taxonomy_id with
  | none => (false, ot)
  | some tid =>
    match findTaxonomy taxonomies tid with
    | none => (false, ot)
    | some tax =>
      if tax.allow_free_text then (false, ot)
      else
        match ot.tag_id with
        | some _ => (false, ot)
        | none =>
          match tags.find?
              (fun t => decide (t.taxonomy_id = tid ∧ t.value = ot.value)) with
          | some t => (true, { ot with tag_id := some t.id })
          | none => (false, ot)

/-- Modelled from the spec: `resync_object_tags()`: run the resync step over
every binding, write the repaired rows back, and return how many bindings
were repaired. -/
def resync_object_tags (s : Store) : Nat × Store :=
  ((s.object_tags.map (fun ot => resync_binding s.taxonomies s.tags ot)).countP
      (fun r => r.1),
   { s with object_tags :=
      s.object_tags.map (fun ot => (resync_binding s.taxonomies s.tags ot).2) })

theorem resync_binding_spec (T : List Taxonomy) (G : List StoredTag)
    (ot : StoredObjectTag) :
    resync_binding T G ot = (false, ot)
    ∨ (∃ tid tax t, ot.taxonomy_id = some tid ∧ findTaxonomy T tid = some tax
        ∧ tax.allow_free_text = false ∧ ot.tag_id = none
        ∧ G.find? (fun u => decide (u.taxonomy_id = tid ∧ u.value = ot.value))
            = some t
        ∧ resync_binding T G ot = (true, { ot with tag_id := some t.id })) := by
  cases hot : ot.taxonomy_id with
  | none => exact Or.inl (by simp [resync_binding, hot])
  | some tid =>
    cases hft : findTaxonomy T tid with
    | none => exact Or.inl (by simp [resync_binding, hot, hft])
    | some tax =>
      cases hfree : tax.allow_free_text with
      | true => exact Or.inl (by simp [resync_binding, hot, hft, hfree])
      | false =>
        cases htag : ot.tag_id with
        | some j => exact Or.inl (by simp [resync_binding, hot, hft, hfree, htag])
        | none =>
          cases hfind : G.find?
              (fun u => decide (u.taxonomy_id = tid ∧ u.value = ot.value)) with
          | some t =>
            have hfind2 : G.find? (fun u =>
                decide (u.taxonomy_id = tid) && decide (u.value = ot.value))
                = some t := by
              have h0 := hfind
              simp only [Bool.decide_and] at h0
              exact h0
            exact Or.inr ⟨tid, tax, t, rfl, hft, hfree, rfl, hfind,
              by simp [resync_binding, hot, hft, hfree, htag, hfind2]⟩
          | none =>
            have hfind2 : G.find? (fun u =>
                decide (u.taxonomy_id = tid) && decide (u.value = ot.value))
                = none := by
              have h0 := hfind
              simp only [Bool.decide_and] at h0
              exact h0
            exact Or.inl (by simp [resync_binding, hot, hft, hfree, htag, hfind2])

theorem resync_binding_false (T : List Taxonomy) (G : List StoredTag)
    (ot : StoredObjectTag) (h : (resync_binding T G ot).1 = false) :
    (resync_binding T G ot).2 = ot := by
  rcases resync_binding_spec T G ot with hs | ⟨tid, tax, t, _, _, _, _, _, hs⟩
  · rw [hs]
  · rw [hs] at h; cases h

theorem resync_binding_true (T : List Taxonomy) (G : List StoredTag)
    (ot : StoredObjectTag) (h : (resync_binding T G ot).1 = true) :
    (resync_binding T G ot).2 ≠ ot := by
  rcases resync_binding_spec T G ot with hs | ⟨tid, tax, t, _, _, _, htag, _, hs⟩
  · rw [hs] at h; cases h
  · rw [hs]
    intro hEq
    have h2 := congrArg StoredObjectTag.tag_id hEq
    simp only at h2
    rw [htag] at h2
    cases h2

theorem resync_binding_stable (T : List Taxonomy) (G : List StoredTag)
    (ot : StoredObjectTag) :
    resync_binding T G (resync_binding T G ot).2
      = (false, (resync_binding T G ot).2) := by
  rcases resync_binding_spec T G ot with hs
    | ⟨tid, tax, t, hot, hft, hfree, htag, hfind, hs⟩
  · rw [hs]
    exact hs
  · rw [hs]
    simp [resync_binding, hot, hft, hfree]

theorem resync_binding_frame (T : List Taxonomy) (G : List StoredTag)
    (ot : StoredObjectTag) :
    (resync_binding T G ot).2.id = ot.id
    ∧ (resync_binding T G ot).2.object_id = ot.object_id
    ∧ (resync_binding T G ot).2.taxonomy_id = ot.taxonomy_id
    ∧ (resync_binding T G ot).2.value = ot.value
    ∧ (resync_binding T G ot).2.name = ot.name := by
  rcases resync_binding_spec T G ot with hs
    | ⟨tid, tax, t, hot, hft, hfree, htag, hfind, hs⟩ <;>
      (rw [hs]; exact ⟨rfl, rfl, rfl, rfl, rfl⟩)

theorem resync_binding_relink (T : List Taxonomy) (G : List StoredTag)
    (ot : StoredObjectTag)
    (h : (resync_binding T G ot).2.tag_id ≠ ot.tag_id) :
    ot.tag_id = none
    ∧ ∃ t ∈ G, (resync_binding T G ot).2.tag_id = some t.id
        ∧ ot.taxonomy_id = some t.taxonomy_id
        ∧ t.value = ot.value := by
  rcases resync_binding_spec T G ot with hs
    | ⟨tid, tax, t, hot, hft, hfree, htag, hfind, hs⟩
  · rw [hs] at h
    exact absurd rfl h
  · have hp := List.find?_some hfind
    rw [decide_eq_true_eq] at hp
    refine ⟨htag, t, List.mem_of_find?_eq_some hfind, ?_, ?_, hp.2⟩
    · rw [hs]
    · rw [hot, hp.1]

theorem resync_countP_eq (T : List Taxonomy) (G : List StoredTag) :
    ∀ (l : List StoredObjectTag),
      (l.map (fun ot => resync_binding T G ot)).countP (fun r => r.1)
        = (l.zip (l.map (fun ot => (resync_binding T G ot).2))).countP
            (fun p => decide (¬p.1 = p.2)) := by
  intro l
  induction l with
  | nil => rfl
  | cons x xs ih =>
    simp only [List.map_cons, List.zip_cons_cons, List.countP_cons]
    rw [ih]
    congr 1
    by_cases h : (resync_binding T G x).1 = true
    · have hne : ¬x = (resync_binding T G x).2 :=
        fun hEq => resync_binding_true T G x h hEq.symm
      simp [h, hne]
    · have hf : (resync_binding T G x).1 = false := Bool.not_eq_true _ ▸ h
      have heq := resync_binding_false T G x hf
      simp [hf, heq]

/-- C5: resync repairs a binding only by re-linking: every field but the link
is preserved (the denormalized value is never rewritten); a link changes only
from severed to a Tag of the binding's taxonomy carrying the binding's stored
value that exists again; the returned count is exactly the number of bindings
whose row changed; a run with no repairable binding returns 0 and writes
nothing, and a second consecutive run always returns 0 and writes nothing; a
binding left untouched keeps its is_deleted flag. -/
theorem resync_object_tags_spec :
    (∀ s : Store,
      (resync_object_tags s).2.taxonomies = s.taxonomies
      ∧ (resync_object_tags s).2.tags = s.tags
      ∧ (resync_object_tags s).2.object_tags.length = s.object_tags.length)
    ∧ (∀ (s : Store) (k : Nat) (hk : k < s.object_tags.length)
        (hk' : k < (resync_object_tags s).2.object_tags.length),
        ((resync_object_tags s).2.object_tags[k].id = s.object_tags[k].id
          ∧ (resync_object_tags s).2.object_tags[k].object_id
            = s.object_tags[k].object_id
          ∧ (resync_object_tags s).2.object_tags[k].taxonomy_id
            = s.object_tags[k].taxonomy_id
          ∧ (resync_object_tags s).2.object_tags[k].value = s.object_tags[k].value
          ∧ (resync_object_tags s).2.object_tags[k].name = s.object_tags[k].name)
        ∧ ((resync_object_tags s).2.object_tags[k].tag_id
              ≠ s.object_tags[k].tag_id →
            s.object_tags[k].tag_id = none
            ∧ ∃ t ∈ s.tags,
                (resync_object_tags s).2.object_tags[k].tag_id = some t.id
                ∧ s.object_tags[k].taxonomy_id = some t.taxonomy_id
                ∧ t.value = s.object_tags[k].value)
        ∧ ((resync_object_tags s).2.object_tags[k] = s.object_tags[k] →
            is_deleted (resync_object_tags s).2.taxonomies
                ((resync_object_tags s).2.object_tags[k])
              = is_deleted s.taxonomies s.object_tags[k]))
    ∧ (∀ s : Store,
        (resync_object_tags s).1
          = ((s.object_tags.zip (resync_object_tags s).2.object_tags).countP
              (fun p => decide (¬p.1 = p.2))))
    ∧ (∀ s : Store,
        (∀ ot ∈ s.object_tags,
          (resync_binding s.taxonomies s.tags ot).1 = false) →
        resync_object_tags s = (0, s))
    ∧ (∀ s : Store,
        resync_object_tags (resync_object_tags s).2
          = (0, (resync_object_tags s).2)) := by
  refine ⟨?_, ?_, ?_, ?_, ?_⟩
  · intro s
    exact ⟨rfl, rfl, by simp [resync_object_tags]⟩
  · intro s k hk hk'
    have hget : (resync_object_tags s).2.object_tags[k]
        = (resync_binding s.taxonomies s.tags s.object_tags[k]).2 := by
      simp [resync_object_tags]
    rw [hget]
    refine ⟨resync_binding_frame s.taxonomies s.tags s.object_tags[k],
      resync_binding_relink s.taxonomies s.tags s.object_tags[k], fun hEq => ?_⟩
    rw [hEq]
    rfl
  · intro s
    exact resync_countP_eq s.taxonomies s.tags s.object_tags
  · intro s hall
    obtain ⟨T, G, L, n⟩ := s
    simp only [resync_object_tags, Prod.mk.injEq]
    constructor
    · rw [List.countP_eq_zero]
      intro r hr
      obtain ⟨x, hx, rfl⟩ := List.mem_map.mp hr
      rw [hall x hx]
      simp
    · have : L.map (fun ot => (resync_binding T G ot).2) = L := by
        rw [show L.map (fun ot => (resync_binding T G ot).2)
            = L.map id from List.map_congr_left
              (fun x hx => resync_binding_false T G x (hall x hx)), List.map_id]
      rw [this]
  · intro s
    obtain ⟨T, G, L, n⟩ := s
    simp only [resync_object_tags, Prod.mk.injEq]
    constructor
    · rw [List.countP_eq_zero]
      intro r hr
      rw [List.map_map, List.mem_map] at hr
      obtain ⟨x, hx, rfl⟩ := hr
      simp only [Function.comp]
      rw [resync_binding_stable T G x]
      simp
    · have hmap : L.map ((fun ot => (resync_binding T G ot).2)
            ∘ (fun ot => (resync_binding T G ot).2))
          = L.map (fun ot => (resync_binding T G ot).2) := by
        apply List.map_congr_left
        intro x hx
        simp only [Function.comp]
        rw [resync_binding_stable T G x]
      rw [List.map_map, hmap]

/-- The fixture store after deleting the Eubacteria tag: its row is gone and
the second binding's link is severed, value preserved. -/
def severedStore : Store :=
  { taxonomies := [lifeTaxonomy], tags := [archaeaTag],
    object_tags :=
      [{ id := 1, object_id := "biology101", taxonomy_id := some 1,
         tag_id := some 2, value := "Archaea", name := "Life on Earth" },
       { id := 2, object_id := "biology101", taxonomy_id := some 1,
         tag_id := none, value := "Eubacteria", name := "Life on Earth" }],
    next_object_tag_id := 3 }

/-- The severed store after the Eubacteria tag is recreated (same row). -/
def restoredStore : Store :=
  { severedStore with tags := [archaeaTag, eubacteriaTag] }

theorem resync_object_tags_witness :
    resync_object_tags severedStore = (0, severedStore)
    ∧ resync_object_tags restoredStore = (1, exampleStoreTagged)
    ∧ resync_object_tags (resync_object_tags restoredStore).2
        = (0, (resync_object_tags restoredStore).2) :=
  ⟨resync_object_tags_spec.2.2.2.1 severedStore (by decide),
   rfl,
   resync_object_tags_spec.2.2.2.2 restoredStore⟩

/-! ## Part 4: autocomplete -/

/-- Whether `pat` is a leading segment of the character list. -/
def leadMatch : List Char → List Char → Bool
  | [], _ => true
  | _ :: _, [] => false
  | a :: as, b :: bs => decide (a = b) && leadMatch as bs

/-- Whether `pat` occurs contiguously inside the character list. -/
def subMatch (pat : List Char) : List Char → Bool
  | [] => pat.isEmpty
  | b :: bs => leadMatch pat (b :: bs) || subMatch pat bs

/-- Case-insensitive substring test on strings. -/
def containsCI (hay pat : String) : Bool :=
  subMatch pat.toLower.data hay.toLower.data

/-- Stable insertion by binding value. -/
def insertByValue (x : StoredObjectTag) :
    List StoredObjectTag → List StoredObjectTag
  | [] => [x]
  | y :: ys =>
    if x.value < y.value then x :: y :: ys else y :: insertByValue x ys

/-- Stable insertion sort by binding value. -/
def sortByValue : List StoredObjectTag → List StoredObjectTag
  | [] => []
  | x :: xs => insertByValue x (sortByValue xs)

/-- First-occurrence deduplication of bindings by value. -/
def dedupByValue : List StoredObjectTag → List StoredObjectTag
  | [] => []
  | x :: xs => x :: (dedupByValue xs).filter (fun y => decide (y.value ≠ x.value))

/-- The failure of an autocomplete mode that is not implemented. -/
inductive AutocompleteError where
  | notImplemented : AutocompleteError
deriving DecidableEq, Repr

/-- Modelled from the spec: `autocomplete_tags(taxonomy, search, object_id,
object_tags_only)`: matches the search string case-insensitively against the
values already applied in bindings of this taxonomy, excludes values already
bound to `object_id` when one is given, deduplicates by value, sorts by value
and pairs each value with its Tag identity (null for free-text taxonomies).
The test suite pins the mode switch: the default `object_tags_only=True`
object-tag search is the implemented mode, and `object_tags_only=False`
(searching the whole taxonomy) raises NotImplementedError even on a plain
closed taxonomy. -/
def autocomplete_tags (s : Store) (taxonomy : Taxonomy) (search : String)
    (object_id : Option String := none) (object_tags_only : Bool := true) :
    Except AutocompleteError (List (String × Option Nat)) :=
  if object_tags_only = false then .error .notImplemented
  else
    let matching := s.object_tags.filter (fun ot =>
      decide (ot.taxonomy_id = some taxonomy.id) && containsCI ot.value search
        && (match object_id with
            | none => true
            | some oid => !(s.object_tags.any (fun b =>
                decide (b.object_id = oid ∧ b.taxonomy_id = some taxonomy.id
                  ∧ b.value = ot.value)))))
    .ok ((sortByValue (dedupByValue matching)).map (fun ot =>
      (ot.value, if taxonomy.allow_free_text then none else ot.tag_id)))

/-- C9 counterexample: on the plain closed fixture taxonomy — a variant that
supports autocomplete — the call with `object_tags_only := false` fails with
the not-implemented error while the default `object_tags_only := true` mode
succeeds, so the reserved unimplemented mode is False, not True as claimed. -/
theorem autocomplete_not_implemented_mode :
    autocomplete_tags exampleStore lifeTaxonomy "test" none false
        = .error .notImplemented
    ∧ autocomplete_tags exampleStore lifeTaxonomy "test" none true = .ok [] :=
  ⟨rfl, rfl⟩

/-- C9 amended: `object_tags_only=False` (search over the whole taxonomy) is
the reserved unimplemented mode and raises for every taxonomy variant rather
than returning partial data; the default `object_tags_only=True` mode, which
matches against already-applied object tags, succeeds on every taxonomy of the
store, closed and free-text alike. -/
theorem autocomplete_tags_amended :
    (∀ (s : Store) (taxonomy : Taxonomy) (search : String) (oid : Option String),
      autocomplete_tags s taxonomy search oid false = .error .notImplemented)
    ∧ (∀ (s : Store) (taxonomy : Taxonomy) (search : String) (oid : Option String),
      ∃ r, autocomplete_tags s taxonomy search oid true = .ok r) :=
  ⟨fun _ _ _ _ => rfl, fun _ _ _ _ => ⟨_, rfl⟩⟩

/-! ## Part 5: get_object_tags ordering -/

theorem mem_insertByKey (x a : StoredObjectTag) :
    ∀ (l : List StoredObjectTag), a ∈ insertByKey x l ↔ a = x ∨ a ∈ l := by
  intro l
  induction l with
  | nil => simp [insertByKey]
  | cons y ys ih =>
    simp only [insertByKey]
    split
    · simp
    · simp only [List.mem_cons, ih]
      tauto

theorem sorted_insertByKey (x : StoredObjectTag) :
    ∀ (l : List StoredObjectTag),
      List.Pairwise (fun a b => taxKey a ≤ taxKey b) l →
      List.Pairwise (fun a b => taxKey a ≤ taxKey b) (insertByKey x l) := by
  intro l
  induction l with
  | nil => intro _; simp [insertByKey]
  | cons y ys ih =>
    intro h
    have hy := List.pairwise_cons.mp h
    simp only [insertByKey]
    split
    · rename_i hlt
      refine List.pairwise_cons.mpr ⟨?_, h⟩
      intro b hb
      rcases List.mem_cons.mp hb with rfl | hb'
      · exact Nat.le_of_lt hlt
      · exact Nat.le_trans (Nat.le_of_lt hlt) (hy.1 b hb')
    · rename_i hnlt
      refine List.pairwise_cons.mpr ⟨?_, ih hy.2⟩
      intro b hb
      rcases (mem_insertByKey x b ys).mp hb with rfl | hb'
      · exact Nat.le_of_not_lt hnlt
      · exact hy.1 b hb'

theorem sorted_sortByKey :
    ∀ (l : List StoredObjectTag),
      List.Pairwise (fun a b => taxKey a ≤ taxKey b) (sortByKey l) := by
  intro l
  induction l with
  | nil => simp [sortByKey]
  | cons x xs ih => exact sorted_insertByKey x (sortByKey xs) ih

theorem mem_sortByKey (a : StoredObjectTag) :
    ∀ (l : List StoredObjectTag), a ∈ sortByKey l ↔ a ∈ l := by
  intro l
  induction l with
  | nil => simp [sortByKey]
  | cons x xs ih =>
    simp only [sortByKey, mem_insertByKey, ih, List.mem_cons]

theorem taxKey_eq_zero (ot : StoredObjectTag) :
    taxKey ot = 0 ↔ ot.taxonomy_id = none := by
  cases hot : ot.taxonomy_id with
  | none => simp [taxKey, hot]
  | some tid => simp [taxKey, hot]

/-- C10: get_object_tags with no taxonomy filter returns every binding of the
object, those whose taxonomy reference is null included, ordered with the
null-taxonomy bindings before every binding that carries a taxonomy (sorted
by taxonomy identity); supplying taxonomy_id returns exactly the bindings of
that taxonomy, filtering the null-taxonomy ones out. -/
theorem get_object_tags_spec :
    (∀ (s : Store) (oid : String) (ot : StoredObjectTag),
      ot ∈ s.object_tags → ot.object_id = oid → ot ∈ get_object_tags s oid none)
    ∧ (∀ (s : Store) (oid : String) (ot : StoredObjectTag),
      ot ∈ get_object_tags s oid none → ot ∈ s.object_tags ∧ ot.object_id = oid)
    ∧ (∀ (s : Store) (oid : String) (i j : Nat)
        (hi : i < (get_object_tags s oid none).length)
        (hj : j < (get_object_tags s oid none).length),
        i ≤ j → (get_object_tags s oid none)[j].taxonomy_id = none →
        (get_object_tags s oid none)[i].taxonomy_id = none)
    ∧ (∀ (s : Store) (oid : String) (tid : Nat) (ot : StoredObjectTag),
        ot ∈ get_object_tags s oid (some tid) ↔
          (ot ∈ s.object_tags ∧ ot.object_id = oid ∧ ot.taxonomy_id = some tid)) := by
  refine ⟨?_, ?_, ?_, ?_⟩
  · intro s oid ot hmem hoid
    simp only [get_object_tags, mem_sortByKey, List.mem_filter]
    exact ⟨hmem, by simp [hoid]⟩
  · intro s oid ot h
    simp only [get_object_tags, mem_sortByKey, List.mem_filter,
      decide_eq_true_eq] at h
    exact h
  · intro s oid i j hi hj hij hj0
    rcases Nat.eq_or_lt_of_le hij with rfl | hlt
    · exact hj0
    · have hs := sorted_sortByKey
        (s.object_tags.filter (fun ot => decide (ot.object_id = oid)))
      have hle := (List.pairwise_iff_getElem.mp hs) i j hi hj hlt
      have hjz : taxKey ((get_object_tags s oid none)[j]) = 0 :=
        (taxKey_eq_zero _).mpr hj0
      exact (taxKey_eq_zero _).mp (Nat.le_zero.mp (hjz ▸ hle))
  · intro s oid tid ot
    simp only [get_object_tags, List.mem_filter, isPairBinding, decide_eq_true_eq]

/-- The test's alpha binding: object "abc", no taxonomy. -/
def alphaBinding : StoredObjectTag :=
  { id := 10, object_id := "abc", taxonomy_id := none, tag_id := none,
    value := "Mammalia", name := "Life on Earth" }

/-- The test's beta binding: object "abc" under the closed taxonomy. -/
def betaBinding : StoredObjectTag :=
  { id := 11, object_id := "abc", taxonomy_id := some 1, tag_id := none,
    value := "", name := "" }

/-- A store holding beta before alpha, so the default listing must reorder. -/
def abcStore : Store :=
  { taxonomies := [lifeTaxonomy], tags := [],
    object_tags := [betaBinding, alphaBinding], next_object_tag_id := 12 }

theorem get_object_tags_spec_witness :
    get_object_tags abcStore "abc" none = [alphaBinding, betaBinding]
    ∧ alphaBinding ∈ get_object_tags abcStore "abc" none
    ∧ ((get_object_tags abcStore "abc" none).get ⟨0, by decide⟩).taxonomy_id
        = none
    ∧ betaBinding ∈ get_object_tags abcStore "abc" (some 1)
    ∧ get_object_tags abcStore "abc" (some 1) = [betaBinding] :=
  ⟨rfl,
   get_object_tags_spec.1 abcStore "abc" alphaBinding (by decide) rfl,
   get_object_tags_spec.2.2.1 abcStore "abc" 0 0 (by decide) (by decide)
     (Nat.le_refl 0) (by decide),
   (get_object_tags_spec.2.2.2 abcStore "abc" 1 betaBinding).mpr
     ⟨by decide, rfl, rfl⟩,
   rfl⟩
